import Mathlib

/-!
Verification of the MEV event-monitoring and evaluation pipeline.

The definitions below are a shallow embedding of the Rust sources:
`U256` values are natural numbers bounded by `U256max`, the saturating
`U256` operations are explicit `min`/truncated-subtraction arithmetic,
fallible RPC interactions are `Except` values, and the state carried by
the services (gas-price caches, retry counters, the semaphore of the
simulation pool) is passed explicitly.
-/

namespace MEV

/-- The largest representable `U256` value. -/
def U256max : ℕ := 2 ^ 256 - 1

/-- `U256::saturating_sub`: truncated subtraction, clamping at zero. -/
def satSub (a b : ℕ) : ℕ := a - b

/-- `U256::saturating_mul`: multiplication clamping at `U256max`. -/
def satMul (a b : ℕ) : ℕ := min (a * b) U256max

/-- `U256::saturating_add`: addition clamping at `U256max`. -/
def satAdd (a b : ℕ) : ℕ := min (a + b) U256max

/-- Failure of an RPC interaction: either the provider call itself fails
(`anyhow` transport error), or the `as_u64` narrowing panics because the
fetched `U256` does not fit in 64 bits. -/
inductive RpcError where
  | provider
  | overflow
  deriving DecidableEq

/-- The fields of `ethers::types::Transaction` read by
`SimulationService::simulate_transaction`: `gas_price` is optional (the
code applies `unwrap_or(U256::zero())`) and `gas` is the gas limit. -/
structure Transaction where
  gas_price : Option ℕ
  gas : ℕ
  deriving DecidableEq

/-- The profit computation of `SimulationService::simulate_transaction`
(simulation.rs lines 51-81), given the observed cached gas price:
`estimated_gas_used = gas_limit.saturating_mul(80).div(100)`; when the
gas price of the transaction exceeds the cached gas price the profit is
`premium.saturating_mul(estimated_gas_used)` with
`premium = tx_gas_price.saturating_sub(current_gas_price)`, otherwise
zero. -/
def simulate_profit (current_gas_price : ℕ) (tx : Transaction) : ℕ :=
  if current_gas_price < tx.gas_price.getD 0 then
    satMul (satSub (tx.gas_price.getD 0) current_gas_price) (satMul tx.gas 80 / 100)
  else
    0

/-- `simulate_transaction` with its fallible cached-gas-price read: the
outcome of `get_cached_gas_price` is passed as `cache_fetch`; on failure
the simulation propagates that error, otherwise it returns the profit. -/
def simulate_transaction (cache_fetch : Except RpcError ℕ) (tx : Transaction) :
    Except RpcError ℕ :=
  match cache_fetch with
  | .error e => .error e
  | .ok current_gas_price => .ok (simulate_profit current_gas_price tx)

/-- The profit formula as the specification words it, for comparison with
`simulate_profit`: `estimatedGasUsed = gasLimit * 80 / 100` (integer
truncation), `premium = max(0, gasPrice - cachedGasPrice)`,
`profit = premium * estimatedGasUsed`, with saturating arithmetic
throughout. -/
def profit_per_spec (cached_gas_price : ℕ) (tx : Transaction) : ℕ :=
  satMul (satSub (tx.gas_price.getD 0) cached_gas_price) (satMul tx.gas 80 / 100)

/-- C1: with `c` the observed cached gas price, `g` the gas price of the
transaction and `L` its gas limit, `simulate_profit` returns `0` when
`g ≤ c`, and the saturating product of `g - c` with the saturating
`L * 80 / 100` when `g > c`; the result coincides with the profit formula
of the specification and never exceeds the `U256` maximum (it saturates
rather than wrapping or failing, whatever the magnitude of the inputs). -/
theorem simulate_profit_correct (c : ℕ) (tx : Transaction) (g : ℕ)
    (hg : tx.gas_price = some g) :
    (g ≤ c → simulate_profit c tx = 0) ∧
    (c < g → simulate_profit c tx = satMul (g - c) (satMul tx.gas 80 / 100)) ∧
    simulate_profit c tx = profit_per_spec c tx ∧
    simulate_profit c tx ≤ U256max := by
  unfold simulate_profit profit_per_spec
  rw [hg]
  simp only [Option.getD_some]
  refine ⟨?_, ?_, ?_, ?_⟩
  · intro h
    rw [if_neg (by omega)]
  · intro h
    rw [if_pos h]
    rfl
  · by_cases h : c < g
    · rw [if_pos h]
    · rw [if_neg h]
      have hzero : satSub g c = 0 := by
        unfold satSub
        omega
      rw [hzero]
      unfold satMul
      simp
  · by_cases h : c < g
    · rw [if_pos h]
      unfold satMul
      exact min_le_right _ _
    · rw [if_neg h]
      exact Nat.zero_le _

/-- C1 witness: a concrete profitable transaction evaluated through
`simulate_profit_correct`. -/
theorem simulate_profit_correct_witness :
    simulate_profit 3 ⟨some 5, 100⟩ = satMul (5 - 3) (satMul 100 80 / 100) :=
  (simulate_profit_correct 3 ⟨some 5, 100⟩ 5 rfl).2.1 (by decide)

/-- The backoff delay of both monitor loops (monitor.rs lines 116 and
199): `Duration::from_secs(2u64.pow(retry_count.min(6) as u32))`,
measured in seconds. -/
def backoff_delay (retry_count : ℕ) : ℕ := 2 ^ min retry_count 6

/-- C2: for every retry counter `k ≥ 1` reached after a subscribe
failure, the delay slept before the next subscribe attempt equals
`min(2 ^ k, 64)` seconds, and the delay is monotonically non-decreasing
in the retry counter. -/
theorem backoff_delay_correct (k : ℕ) (_hk : 1 ≤ k) :
    backoff_delay k = min (2 ^ k) 64 ∧
    ∀ j, j ≤ k → backoff_delay j ≤ backoff_delay k := by
  refine ⟨?_, ?_⟩
  · unfold backoff_delay
    rcases le_or_lt k 6 with h | h
    · have h1 : min k 6 = k := min_eq_left h
      have h2 : (2 : ℕ) ^ k ≤ 64 := by
        have h3 : (2 : ℕ) ^ k ≤ 2 ^ 6 := Nat.pow_le_pow_right (by norm_num) h
        norm_num at h3
        exact h3
      rw [h1, min_eq_left h2]
    · have h1 : min k 6 = 6 := min_eq_right h.le
      have h2 : (64 : ℕ) ≤ 2 ^ k := by
        have h3 : (2 : ℕ) ^ 6 ≤ 2 ^ k := Nat.pow_le_pow_right (by norm_num) h.le
        norm_num at h3
        exact h3
      rw [h1, min_eq_right h2]
      norm_num
  · intro j hj
    unfold backoff_delay
    exact Nat.pow_le_pow_right (by norm_num) (min_le_min hj le_rfl)

/-- C2 witness: the delay for retry counter 8 is the capped 64 seconds
and dominates the delay for retry counter 3. -/
theorem backoff_delay_correct_witness :
    backoff_delay 8 = min (2 ^ 8) 64 ∧ backoff_delay 3 ≤ backoff_delay 8 :=
  ⟨(backoff_delay_correct 8 (by decide)).1,
   (backoff_delay_correct 8 (by decide)).2 3 (by decide)⟩

/-- Outcome of one `subscribe_blocks` / `subscribe_pending_txs` call. -/
inductive SubscribeOutcome where
  | ok
  | fail
  deriving DecidableEq

/-- Phase of a monitor loop: attempting to subscribe with the current
retry counter, streaming inside the `select!` loop, or permanently
stopped (the `break` out of the labelled outer loop). -/
inductive MonitorPhase where
  | subscribing (retry_count : ℕ)
  | streaming (retry_count : ℕ)
  | stopped
  deriving DecidableEq

/-- `max_retries` in both monitor loops (monitor.rs lines 82 and 165). -/
def max_retries : ℕ := 10

/-- One subscribe attempt of the monitor outer loop (monitor.rs lines
84-121 and 167-204): on `Ok` the retry counter is reset to zero and the
loop enters the streaming `select!`; on `Err` the counter is incremented
and compared against the maximum — exceeding it breaks the outer loop
(permanent stop), otherwise the loop sleeps and resubscribes. -/
def subscribe_step (maxR retry_count : ℕ) : SubscribeOutcome → MonitorPhase
  | .ok => .streaming 0
  | .fail =>
      if maxR < retry_count + 1 then .stopped
      else .subscribing (retry_count + 1)

/-- The monitor outer loop viewed through its successive subscribe
outcomes: attempts are consumed only in the subscribing phase; the
streaming `select!` never resubscribes (it exits only via the shutdown
signal) and the stopped phase is terminal. -/
def run_subscribe_attempts (maxR : ℕ) :
    MonitorPhase → List SubscribeOutcome → MonitorPhase
  | p, [] => p
  | .subscribing k, o :: rest =>
      run_subscribe_attempts maxR (subscribe_step maxR k o) rest
  | .streaming k, _ :: _ => .streaming k
  | .stopped, _ :: _ => .stopped

theorem run_subscribe_attempts_stopped (maxR : ℕ)
    (events : List SubscribeOutcome) :
    run_subscribe_attempts maxR .stopped events = .stopped := by
  cases events <;> rfl

theorem run_subscribe_attempts_fail_replicate (maxR : ℕ) :
    ∀ (n k : ℕ), k ≤ maxR →
      run_subscribe_attempts maxR (.subscribing k) (List.replicate n .fail) =
        if maxR < k + n then .stopped else .subscribing (k + n) := by
  intro n
  induction n with
  | zero =>
      intro k hk
      rw [List.replicate_zero,
        show run_subscribe_attempts maxR (.subscribing k) [] = .subscribing k from rfl,
        if_neg (by omega), Nat.add_zero]
  | succ n ih =>
      intro k hk
      rw [List.replicate_succ]
      show run_subscribe_attempts maxR (subscribe_step maxR k .fail)
          (List.replicate n .fail) = _
      unfold subscribe_step
      by_cases h : maxR < k + 1
      · rw [if_pos h, run_subscribe_attempts_stopped, if_pos (by omega)]
      · rw [if_neg h, ih (k + 1) (by omega),
          show k + 1 + n = k + (n + 1) from by omega]

/-- C3: with the configured maximum retry count `R`, a feed whose
subscribe calls fail `R + 1` consecutive times reaches the permanent
stop; the stopped phase issues no further subscribe attempts whatever
outcomes follow; every successful subscription resets the retry counter
to zero; instantiated at the configured maximum of 10, eleven
consecutive failures stop the feed. -/
theorem monitor_fatal_stop :
    (∀ R, run_subscribe_attempts R (.subscribing 0)
        (List.replicate (R + 1) .fail) = .stopped) ∧
    (∀ R events, run_subscribe_attempts R .stopped events = .stopped) ∧
    (∀ R k, subscribe_step R k .ok = .streaming 0) ∧
    run_subscribe_attempts max_retries (.subscribing 0)
      (List.replicate 11 .fail) = .stopped := by
  refine ⟨?_, ?_, ?_, ?_⟩
  · intro R
    rw [run_subscribe_attempts_fail_replicate R (R + 1) 0 (Nat.zero_le _),
      if_pos (by omega)]
  · intro R events
    exact run_subscribe_attempts_stopped R events
  · intro R k
    rfl
  · rw [run_subscribe_attempts_fail_replicate max_retries 11 0 (Nat.zero_le _),
      if_pos (by decide)]

/-- An event a suspended monitor task can be woken by: a stream item, the
shutdown signal, or the elapse of the backoff sleep timer. -/
inductive MonitorSignal where
  | item
  | shutdown
  | sleep_elapsed
  deriving DecidableEq

/-- The two suspension points of a monitor loop. -/
inductive MonitorWaitPoint where
  | item_wait
  | backoff_sleep
  deriving DecidableEq

/-- The signals awaited concurrently at each suspension point of the
block monitor (monitor.rs lines 91-103 and 116-118): the streaming
`select!` awaits `stream.next()` and `shutdown_rx.recv()` together,
while the backoff branch awaits `tokio::time::sleep(delay)` alone, with
no shutdown arm. -/
def block_monitor_awaits : MonitorWaitPoint → List MonitorSignal
  | .item_wait => [.item, .shutdown]
  | .backoff_sleep => [.sleep_elapsed]

/-- The signals awaited concurrently at each suspension point of the
transaction monitor (monitor.rs lines 174-186 and 199-201); the
structure is identical to the block monitor. -/
def transaction_monitor_awaits : MonitorWaitPoint → List MonitorSignal
  | .item_wait => [.item, .shutdown]
  | .backoff_sleep => [.sleep_elapsed]

/-- C4 counterexample: contrary to the claim, the shutdown token is not
raced against the backoff sleep — in both monitor loops the backoff
suspension awaits only the sleep timer, so shutdown cannot be observed
there. -/
theorem shutdown_not_raced_in_backoff :
    MonitorSignal.shutdown ∉ block_monitor_awaits .backoff_sleep ∧
    MonitorSignal.shutdown ∉ transaction_monitor_awaits .backoff_sleep := by
  decide

/-- C4 amended: the shutdown token is raced only against the item-wait
`select!`; the backoff sleep awaits nothing but its own timer, so a
shutdown firing mid-backoff is not observed until the sleep has run its
full course. -/
theorem shutdown_race_scope :
    (MonitorSignal.shutdown ∈ block_monitor_awaits .item_wait ∧
     block_monitor_awaits .backoff_sleep = [.sleep_elapsed]) ∧
    (MonitorSignal.shutdown ∈ transaction_monitor_awaits .item_wait ∧
     transaction_monitor_awaits .backoff_sleep = [.sleep_elapsed]) := by
  decide

/-- State of the simulation slot pool: free semaphore permits, callers
holding a permit inside the evaluation section, and callers suspended in
`semaphore.acquire()`. -/
structure SimPoolState where
  permits : ℕ
  running : ℕ
  waiting : ℕ
  deriving DecidableEq

/-- The semaphore of `SimulationService` starts with `worker_threads`
permits (simulation.rs lines 40-41); initially nothing runs or waits. -/
def initPoolState (worker_threads : ℕ) : SimPoolState :=
  { permits := worker_threads, running := 0, waiting := 0 }

/-- Events of `simulate_transaction` around its semaphore (simulation.rs
line 56): a caller arrives at `acquire`; a suspended caller obtains a
permit only when one is free; a running evaluation completes — with
success or with an error, for the permit is an RAII guard dropped on
every exit path — and its permit returns to the pool either way. -/
inductive SimPoolStep : SimPoolState → SimPoolState → Prop where
  | arrive (p r w : ℕ) : SimPoolStep ⟨p, r, w⟩ ⟨p, r, w + 1⟩
  | acquire (p r w : ℕ) : SimPoolStep ⟨p + 1, r, w + 1⟩ ⟨p, r + 1, w⟩
  | release (success : Bool) (p r w : ℕ) : SimPoolStep ⟨p, r + 1, w⟩ ⟨p + 1, r, w⟩

/-- States of the slot pool reachable from the freshly constructed
service. -/
inductive SimPoolReachable (worker_threads : ℕ) : SimPoolState → Prop where
  | init : SimPoolReachable worker_threads (initPoolState worker_threads)
  | step {s t : SimPoolState} : SimPoolReachable worker_threads s →
      SimPoolStep s t → SimPoolReachable worker_threads t

theorem simPool_invariant {N : ℕ} {s : SimPoolState}
    (h : SimPoolReachable N s) : s.permits + s.running = N := by
  induction h with
  | init => simp [initPoolState]
  | step _ hstep ih => cases hstep <;> simp_all <;> omega

/-- C5: in every reachable state of the slot pool at most
`worker_threads` evaluations are inside the evaluation section; no step
taken from a state with no free permit increases the running count
(callers beyond the pool size stay suspended at acquisition); and the
release step exists for successful and failed evaluations alike. -/
theorem simulate_bounded_concurrency (N : ℕ) :
    (∀ s, SimPoolReachable N s → s.running ≤ N) ∧
    (∀ s t, SimPoolStep s t → s.permits = 0 → t.running ≤ s.running) ∧
    (∀ (success : Bool) (p r w : ℕ),
      SimPoolStep ⟨p, r + 1, w⟩ ⟨p + 1, r, w⟩) := by
  refine ⟨?_, ?_, ?_⟩
  · intro s hs
    have h := simPool_invariant hs
    omega
  · intro s t hst hp
    cases hst <;> simp_all
  · intro b p r w
    exact SimPoolStep.release b p r w

/-- C5 witness: the initial pool with two workers is reachable and its
running count is within the bound. -/
theorem simulate_bounded_concurrency_witness :
    (initPoolState 2).running ≤ 2 :=
  (simulate_bounded_concurrency 2).1 (initPoolState 2) SimPoolReachable.init

/-- The loop body of `SimulationService::estimate_bundle_profit`
(simulation.rs lines 87-96): a successful simulation is saturating-added
to the running total, a failed one is only logged and leaves the total
unchanged. The per-transaction simulation outcome is supplied by `sim`. -/
def bundle_add (sim : Transaction → Except RpcError ℕ)
    (total_profit : ℕ) (tx : Transaction) : ℕ :=
  match sim tx with
  | .ok profit => satAdd total_profit profit
  | .error _ => total_profit

/-- `SimulationService::estimate_bundle_profit` (simulation.rs lines
84-99): fold `bundle_add` over the bundle starting from zero; the
function itself always returns `Ok` of the total. -/
def estimate_bundle_profit (sim : Transaction → Except RpcError ℕ)
    (txs : List Transaction) : Except RpcError ℕ :=
  .ok (txs.foldl (bundle_add sim) 0)

/-- The profits of exactly the transactions whose individual simulation
succeeded. -/
def successful_profits (sim : Transaction → Except RpcError ℕ)
    (txs : List Transaction) : List ℕ :=
  txs.filterMap (fun tx => (sim tx).toOption)

theorem bundle_foldl_eq (sim : Transaction → Except RpcError ℕ) :
    ∀ (txs : List Transaction) (acc : ℕ), acc ≤ U256max →
      List.foldl (bundle_add sim) acc txs =
        min (acc + (successful_profits sim txs).sum) U256max := by
  intro txs
  induction txs with
  | nil =>
      intro acc hacc
      simp only [List.foldl_nil, successful_profits, List.filterMap_nil,
        List.sum_nil, Nat.add_zero]
      omega
  | cons tx rest ih =>
      intro acc hacc
      rw [List.foldl_cons]
      cases hsim : sim tx with
      | ok profit =>
          have h1 : bundle_add sim acc tx = satAdd acc profit := by
            unfold bundle_add
            rw [hsim]
          have h2 : satAdd acc profit ≤ U256max := min_le_right _ _
          rw [h1, ih _ h2]
          simp only [successful_profits, List.filterMap_cons, hsim,
            Except.toOption, List.sum_cons]
          unfold satAdd
          omega
      | error e =>
          have h1 : bundle_add sim acc tx = acc := by
            unfold bundle_add
            rw [hsim]
          rw [h1, ih acc hacc]
          simp only [successful_profits, List.filterMap_cons, hsim,
            Except.toOption]

/-- C6: for every bundle, `estimate_bundle_profit` returns successfully
with the saturating sum of the profits of exactly those transactions
whose individual simulation succeeded; a failing simulation contributes
zero and never aborts the batch. -/
theorem estimate_bundle_profit_correct (sim : Transaction → Except RpcError ℕ)
    (txs : List Transaction) :
    estimate_bundle_profit sim txs =
      .ok (min (successful_profits sim txs).sum U256max) := by
  unfold estimate_bundle_profit
  rw [bundle_foldl_eq sim txs 0 (Nat.zero_le _), Nat.zero_add]

namespace BlockchainClient

/-- `BlockchainClient::get_gas_price` (client.rs lines 165-174): fetch
the gas price from the HTTP provider, store it into the
`current_gas_price` cache narrowed by `as_u64` — which panics, modelled
as `RpcError.overflow`, whenever the fetched value does not fit in 64
bits, leaving the cache unwritten — and return the fetched value. The
pair is (call result, cache after the call). -/
def get_gas_price (fetch : Except RpcError ℕ) (current_gas_price : ℕ) :
    Except RpcError ℕ × ℕ :=
  match fetch with
  | .error e => (.error e, current_gas_price)
  | .ok gas_price =>
      if gas_price < 2 ^ 64 then (.ok gas_price, gas_price)
      else (.error .overflow, current_gas_price)

/-- `BlockchainClient::get_cached_gas_price` (client.rs lines 176-184):
when the cached value is positive, return it with the cache untouched;
otherwise fall through to `get_gas_price`. -/
def get_cached_gas_price (fetch : Except RpcError ℕ) (current_gas_price : ℕ) :
    Except RpcError ℕ × ℕ :=
  if 0 < current_gas_price then (.ok current_gas_price, current_gas_price)
  else get_gas_price fetch current_gas_price

end BlockchainClient

/-- C7: `get_cached_gas_price` returns a non-zero cached value unchanged
(cache untouched); on a zero cache it delegates to `get_gas_price`,
which performs the provider fetch, and — for a successful fetch of a
64-bit representable price — stores the fetched value into the cache and
returns it. -/
theorem get_cached_gas_price_correct (fetch : Except RpcError ℕ) (c : ℕ) :
    (c ≠ 0 → BlockchainClient.get_cached_gas_price fetch c = (.ok c, c)) ∧
    (c = 0 → BlockchainClient.get_cached_gas_price fetch c =
       BlockchainClient.get_gas_price fetch c) ∧
    (∀ g, c = 0 → fetch = .ok g → g < 2 ^ 64 →
       BlockchainClient.get_cached_gas_price fetch c = (.ok g, g)) := by
  refine ⟨?_, ?_, ?_⟩
  · intro hc
    unfold BlockchainClient.get_cached_gas_price
    rw [if_pos (by omega)]
  · intro hc
    subst hc
    unfold BlockchainClient.get_cached_gas_price
    rw [if_neg (by omega)]
  · intro g hc hf hg
    subst hc
    subst hf
    unfold BlockchainClient.get_cached_gas_price
    rw [if_neg (by omega)]
    simp only [BlockchainClient.get_gas_price]
    rw [if_pos hg]

/-- C7 witness: a non-zero cache of 7 is returned as is; a zero cache
with a successful fetch of 5 yields 5 and caches it. -/
theorem get_cached_gas_price_correct_witness :
    BlockchainClient.get_cached_gas_price (.error .provider) 7 = (.ok 7, 7) ∧
    BlockchainClient.get_cached_gas_price (.ok 5) 0 = (.ok 5, 5) :=
  ⟨(get_cached_gas_price_correct (.error .provider) 7).1 (by decide),
   (get_cached_gas_price_correct (.ok 5) 0).2.2 5 rfl rfl (by decide)⟩

/-- C10: `get_gas_price` narrows the fetched price into the 64-bit
cache; prices of at least `2 ^ 64` make the call fail (the `as_u64`
panic) without caching anything, while under the precondition the fetch
is cached exactly, and for a non-zero fetched price every subsequent
`get_cached_gas_price` — whatever its own fetch oracle — returns exactly
the previously fetched value. -/
theorem get_gas_price_narrowing (fetch fetch2 : Except RpcError ℕ) (c g : ℕ)
    (hf : fetch = .ok g) :
    (2 ^ 64 ≤ g →
       BlockchainClient.get_gas_price fetch c = (.error .overflow, c)) ∧
    (g < 2 ^ 64 →
       BlockchainClient.get_gas_price fetch c = (.ok g, g) ∧
       (0 < g →
         BlockchainClient.get_cached_gas_price fetch2 g = (.ok g, g))) := by
  subst hf
  refine ⟨?_, ?_⟩
  · intro hge
    simp only [BlockchainClient.get_gas_price]
    rw [if_neg (by omega)]
  · intro hlt
    refine ⟨?_, ?_⟩
    · simp only [BlockchainClient.get_gas_price]
      rw [if_pos hlt]
    · intro hpos
      unfold BlockchainClient.get_cached_gas_price
      rw [if_pos hpos]

/-- C10 witness: a fetch of `2 ^ 64` overflows the narrowing and leaves
the cache at 3; a fetch of 5 is cached and later read back. -/
theorem get_gas_price_narrowing_witness :
    BlockchainClient.get_gas_price (.ok (2 ^ 64)) 3 = (.error .overflow, 3) ∧
    BlockchainClient.get_gas_price (.ok 5) 3 = (.ok 5, 5) ∧
    BlockchainClient.get_cached_gas_price (.ok 9) 5 = (.ok 5, 5) :=
  ⟨(get_gas_price_narrowing (.ok (2 ^ 64)) (.error .provider) 3 (2 ^ 64) rfl).1
      le_rfl,
   ((get_gas_price_narrowing (.ok 5) (.ok 9) 3 5 rfl).2 (by decide)).1,
   ((get_gas_price_narrowing (.ok 5) (.ok 9) 3 5 rfl).2 (by decide)).2
      (by decide)⟩

namespace TransactionService

/-- `TransactionService::get_gas_price` (transaction.rs lines 116-124):
read the service-level `current_gas_price`; when it is zero, drop the
read guard and delegate to `BlockchainClient::get_gas_price` — which
writes only the client-level cache — otherwise return the cached value.
The triple is (result, service cache after, client cache after). -/
def get_gas_price (fetch : Except RpcError ℕ)
    (current_gas_price client_gas_price : ℕ) :
    Except RpcError ℕ × ℕ × ℕ :=
  if current_gas_price = 0 then
    ((BlockchainClient.get_gas_price fetch client_gas_price).1,
     current_gas_price,
     (BlockchainClient.get_gas_price fetch client_gas_price).2)
  else
    (.ok current_gas_price, current_gas_price, client_gas_price)

/-- `TransactionService::update_gas_price` (transaction.rs lines
110-114): overwrite the service-level cache and return `Ok(())`. The
pair is (result, service cache after). -/
def update_gas_price (gas_price current_gas_price : ℕ) :
    Except RpcError Unit × ℕ :=
  (.ok (), gas_price)

end TransactionService

/-- C9: when the service-level cache is zero, `get_gas_price` returns
the freshly fetched provider value while the service cache stays zero —
only the client cache is written — so a later read seeing the zero
service cache fetches again; `get_gas_price` never writes the service
cache in any case; and `update_gas_price`, the only writer, replaces the
stored value and always succeeds. -/
theorem service_gas_price_frame (fetch : Except RpcError ℕ)
    (clientC g : ℕ) :
    (fetch = .ok g → g < 2 ^ 64 →
       TransactionService.get_gas_price fetch 0 clientC = (.ok g, 0, g)) ∧
    (∀ svc, (TransactionService.get_gas_price fetch svc clientC).2.1 = svc) ∧
    (∀ svc, TransactionService.update_gas_price g svc = (.ok (), g)) := by
  refine ⟨?_, ?_, ?_⟩
  · intro hf hg
    subst hf
    unfold TransactionService.get_gas_price
    rw [if_pos rfl]
    simp only [BlockchainClient.get_gas_price]
    rw [if_pos hg]
  · intro svc
    unfold TransactionService.get_gas_price
    split <;> rfl
  · intro svc
    rfl

/-- C9 witness: with a zero service cache, a fetch of 5 is returned, the
service cache remains zero and the client cache becomes 5. -/
theorem service_gas_price_frame_witness :
    TransactionService.get_gas_price (.ok 5) 0 9 = (.ok 5, 0, 5) :=
  (service_gas_price_frame (.ok 5) 9 5).1 rfl (by decide)

/-- The externally visible effects of processing one pending
transaction. -/
inductive TxAction where
  | recorded
  | evaluated
  | profit_updated (profit : ℕ)
  | marked_for_inclusion
  | eval_failure_counted
  deriving DecidableEq

namespace TransactionService

/-- `TransactionService::process_pending_transaction` (transaction.rs
lines 43-80) as its trace of effects: the transaction is stored
(`store_transaction`, which always returns `Ok` in the source),
simulated once, and on simulation success its profit record is updated
and it is marked for inclusion exactly when the profit is strictly
positive; a simulation error only bumps the dropped counter. The
function returns `Ok(())` in every case; the simulation outcome is
supplied by `sim_result`. -/
def process_pending_transaction (sim_result : Except RpcError ℕ) :
    Except RpcError (List TxAction) :=
  .ok (.recorded :: .evaluated ::
    match sim_result with
    | .ok profit =>
        .profit_updated profit ::
          (if 0 < profit then [.marked_for_inclusion] else [])
    | .error _ => [.eval_failure_counted])

end TransactionService

namespace Monitor

/-- `process_pending_transaction` in monitor.rs lines 211-223: fetch the
full transaction by hash, propagating a fetch error; when the provider
returns no transaction, succeed having done nothing; otherwise hand the
transaction to `TransactionService::process_pending_transaction`. -/
def process_pending_transaction
    (fetch_result : Except RpcError (Option Transaction))
    (sim_result : Except RpcError ℕ) : Except RpcError (List TxAction) :=
  match fetch_result with
  | .error e => .error e
  | .ok none => .ok []
  | .ok (some _) => TransactionService.process_pending_transaction sim_result

end Monitor

/-- C8: for a pending transaction hash, a not-found fetch yields success
with no actions; a found transaction is recorded and evaluated exactly
once; on evaluation success the profit record is updated and the
transaction is marked for inclusion exactly when the evaluated profit is
strictly positive; and an evaluation failure is counted yet processing
still returns success, with no error and no retry. -/
theorem process_pending_transaction_correct (tx : Transaction)
    (sim_result : Except RpcError ℕ) :
    (Monitor.process_pending_transaction (.ok none) sim_result = .ok []) ∧
    (∀ p, sim_result = .ok p →
       Monitor.process_pending_transaction (.ok (some tx)) sim_result =
         .ok (.recorded :: .evaluated :: .profit_updated p ::
              (if 0 < p then [.marked_for_inclusion] else [])) ∧
       (TxAction.marked_for_inclusion ∈
          (TxAction.recorded :: TxAction.evaluated ::
           TxAction.profit_updated p ::
           (if 0 < p then [TxAction.marked_for_inclusion] else [])) ↔
          0 < p) ∧
       (TxAction.recorded :: TxAction.evaluated ::
          TxAction.profit_updated p ::
          (if 0 < p then [TxAction.marked_for_inclusion] else [])).count
          TxAction.evaluated = 1) ∧
    (∀ e, sim_result = .error e →
       Monitor.process_pending_transaction (.ok (some tx)) sim_result =
         .ok [.recorded, .evaluated, .eval_failure_counted]) := by
  refine ⟨rfl, ?_, ?_⟩
  · intro p hp
    subst hp
    refine ⟨rfl, ?_, ?_⟩
    · by_cases h : 0 < p <;> simp [h]
    · by_cases h : 0 < p <;> simp [h, List.count_cons]
  · intro e he
    subst he
    rfl

/-- C8 witness: a found transaction with profit 2 is recorded, evaluated
and marked; one whose simulation fails is recorded, evaluated, counted
as dropped, and the processing still succeeds. -/
theorem process_pending_transaction_correct_witness :
    Monitor.process_pending_transaction (.ok (some ⟨some 5, 100⟩)) (.ok 2) =
      .ok [.recorded, .evaluated, .profit_updated 2, .marked_for_inclusion] ∧
    Monitor.process_pending_transaction (.ok (some ⟨some 5, 100⟩))
        (.error .provider) =
      .ok [.recorded, .evaluated, .eval_failure_counted] := by
  constructor
  · have h :=
      ((process_pending_transaction_correct ⟨some 5, 100⟩ (.ok 2)).2.1 2 rfl).1
    simpa using h
  · exact (process_pending_transaction_correct ⟨some 5, 100⟩
      (.error .provider)).2.2 .provider rfl

end MEV
